import Mathlib

/-!
Verification of the heart-disease EDA toolkit against its specification.

The development shallowly embeds the four Python source files:

* `src/src/clean_data.py` — `SimpleDataCleaner.prepare_data` / `clean_data`:
  in-memory tables are association lists of named columns, column access
  mirrors pandas `data[name]` (raising `KeyError` on a missing column),
  column assignment mirrors `data[name] = series` (replace the first
  matching column in place), and `rename` mirrors pandas rename with the
  default `errors` behaviour (missing keys are silently ignored).
* `src/src/ingest_data.py` — the ingestor factory, the zip-target filename
  derivation and the CSV ingestor's download path; network and filesystem
  effects are made explicit through a `World` state and an `HttpResult`
  oracle describing what `requests.get` would produce.
* `src/analysis/analysis_src/missing_values_analysis.py` —
  `analyze_missing_values`: per-column missing counts, scaling, scalar
  division (with a zero denominator surfaced explicitly as an error value)
  and rounding to two decimals with round-half-to-even.
* `src/analysis/src/data_inspection.py` —
  `SummaryStatisticsInspection.inspect`: the categorical `describe` call is
  an oracle that either yields a summary or raises a `ValueError` with a
  message; the embedding records exactly what is printed.
-/

/-- Errors that Python code in the repository can raise: `KeyError` for a
missing column, `ValueError` with a message, and a marker for a division
whose denominator is zero. -/
inductive PyErr where
  | keyError (column : String)
  | valueError (msg : String)
  | zeroDivision
  deriving DecidableEq, Repr

/-- One cell of a table: a numeric value, a string label, or a missing
value (pandas `NaN`/`None`). Numeric cells use exact rationals. -/
inductive Cell where
  | num (v : ℚ)
  | str (s : String)
  | missing
  deriving DecidableEq, Repr

/-- Pandas `isnull` on one cell: only a missing cell counts. -/
def Cell.isMissing : Cell → Bool
  | Cell.missing => true
  | _ => false

/-- An in-memory table: a row count (pandas `len(data)`) and an ordered
association list of named columns. -/
structure DataFrame where
  nrows : Nat
  cols : List (String × List Cell)
  deriving DecidableEq, Repr

/-- First column with the given name, mirroring pandas `data[name]` lookup
order (leftmost match wins). -/
def colLookup : List (String × List Cell) → String → Option (List Cell)
  | [], _ => none
  | p :: rest, n => if p.1 = n then some p.2 else colLookup rest n

/-- Pandas column assignment `data[name] = series`: replace the first
column with that name in place; append the column if the name is absent. -/
def setCol : List (String × List Cell) → String → List Cell → List (String × List Cell)
  | [], n, v => [(n, v)]
  | p :: rest, n, v => if p.1 = n then (n, v) :: rest else p :: setCol rest n v

/-- Pandas `data[name]` read access: `KeyError` when the column is absent. -/
def getCol (df : DataFrame) (n : String) : Except PyErr (List Cell) :=
  match colLookup df.cols n with
  | some v => Except.ok v
  | none => Except.error (PyErr.keyError n)

/-- Whether the table has a column with the given name. -/
def hasCol (df : DataFrame) (n : String) : Bool :=
  (colLookup df.cols n).isSome

/-- The cell-level recode performed by
`np.where(data[c] == 0, noLabel, yesLabel)`: a numeric 0 becomes the
first label, every other cell (non-zero numbers, strings, missing)
becomes the second, because only a numeric 0 compares equal to `0`. -/
def recodeCell (noLabel yesLabel : String) (c : Cell) : Cell :=
  Cell.str (if c = Cell.num 0 then noLabel else yesLabel)

/-- One line of `SimpleDataCleaner.prepare_data`:
`data[name] = np.where(data[name] == 0, noLabel, yesLabel)`.
Reading the column raises `KeyError` when it is absent; writing replaces
it in place. -/
def recodeCol (df : DataFrame) (name noLabel yesLabel : String) : Except PyErr DataFrame :=
  match colLookup df.cols name with
  | none => Except.error (PyErr.keyError name)
  | some v => Except.ok ⟨df.nrows, setCol df.cols name (v.map (recodeCell noLabel yesLabel))⟩

/-- The mapper `columns={"DEATH_EVENT": "death_event"}` applied to one
column header, as pandas `rename` does: headers other than `DEATH_EVENT`
are untouched. -/
def renameEntry (p : String × List Cell) : String × List Cell :=
  (if p.1 = "DEATH_EVENT" then "death_event" else p.1, p.2)

/-- Pandas `data.rename(columns={"DEATH_EVENT": "death_event"})` with the
default error behaviour: every matching header is renamed and a missing
`DEATH_EVENT` is silently ignored (pandas raises only when
`errors="raise"` is requested, which the source does not do). -/
def renameDeathEvent (df : DataFrame) : DataFrame :=
  ⟨df.nrows, df.cols.map renameEntry⟩

/-- `SimpleDataCleaner.prepare_data`: the five in-place recodes in source
order, then the `DEATH_EVENT` rename, returning the same (mutated) table. -/
def prepare_data (df : DataFrame) : Except PyErr DataFrame := do
  let d1 ← recodeCol df "anaemia" "No" "Yes"
  let d2 ← recodeCol d1 "diabetes" "No" "Yes"
  let d3 ← recodeCol d2 "high_blood_pressure" "No" "Yes"
  let d4 ← recodeCol d3 "sex" "Woman" "Man"
  let d5 ← recodeCol d4 "smoking" "No" "Yes"
  pure (renameDeathEvent d5)

/-- `DataCleaningTemplate.clean_data`: delegates to `prepare_data` and
returns its table unchanged. The `head` flag of the source only prints a
preview to the console and does not affect the returned table, so it is
not modelled. -/
def clean_data (df : DataFrame) : Except PyErr DataFrame :=
  prepare_data df

/-- The four binary-coded columns recoded to No/Yes labels. -/
def binaryRecodeCols : List String :=
  ["anaemia", "diabetes", "high_blood_pressure", "smoking"]

/-- All column names whose value or header the cleaner touches. -/
def cleanerTouchedCols : List String :=
  ["anaemia", "diabetes", "high_blood_pressure", "sex", "smoking", "DEATH_EVENT"]

/-- Default entry used with `List.getD` when reading a column slot. -/
def colDefault : String × List Cell := ("", [])

/-- The column list after the five recodes of `prepare_data`, before the
rename, given the five original column values. -/
def recodedCols (cols : List (String × List Cell)) (va vd vh vs vm : List Cell) :
    List (String × List Cell) :=
  setCol
    (setCol
      (setCol
        (setCol
          (setCol cols "anaemia" (va.map (recodeCell "No" "Yes")))
          "diabetes" (vd.map (recodeCell "No" "Yes")))
        "high_blood_pressure" (vh.map (recodeCell "No" "Yes")))
      "sex" (vs.map (recodeCell "Woman" "Man")))
    "smoking" (vm.map (recodeCell "No" "Yes"))

/-- Binding a successful `Except` computation runs the continuation. -/
theorem exbind_ok {α β : Type} {ε : Type} (a : α) (f : α → Except ε β) :
    (Except.ok a >>= f) = f a := rfl

/-- Binding a failed `Except` computation propagates the error. -/
theorem exbind_err {α β : Type} {ε : Type} (e : ε) (f : α → Except ε β) :
    ((Except.error e : Except ε α) >>= f) = Except.error e := rfl

/-- Mapping a function over a successful `Except` computation. -/
theorem exmap_ok {α β : Type} {ε : Type} (a : α) (f : α → β) :
    (f <$> (Except.ok a : Except ε α)) = Except.ok (f a) := rfl

/-- Mapping a function over a failed `Except` computation. -/
theorem exmap_err {α β : Type} {ε : Type} (e : ε) (f : α → β) :
    (f <$> (Except.error e : Except ε α)) = Except.error e := rfl

/-- Setting a column does not disturb lookups of other names. -/
theorem colLookup_setCol_ne (n m : String) (v : List Cell) (h : m ≠ n) :
    ∀ cols, colLookup (setCol cols n v) m = colLookup cols m := by
  intro cols
  induction cols with
  | nil =>
    simp only [setCol, colLookup]
    rw [if_neg (fun hh => h hh.symm)]
  | cons p rest ih =>
    by_cases hp : p.1 = n
    · simp only [setCol, if_pos hp, colLookup]
      rw [if_neg (fun hh => h hh.symm), if_neg (by rw [hp]; exact fun hh => h hh.symm)]
    · simp only [setCol, if_neg hp, colLookup]
      by_cases hm : p.1 = m
      · rw [if_pos hm, if_pos hm]
      · rw [if_neg hm, if_neg hm]; exact ih

/-- Setting an existing column makes its new value visible to lookup. -/
theorem colLookup_setCol_self (n : String) (v w : List Cell) :
    ∀ cols, colLookup cols n = some w → colLookup (setCol cols n v) n = some v := by
  intro cols
  induction cols with
  | nil => intro h; simp [colLookup] at h
  | cons p rest ih =>
    intro h
    by_cases hp : p.1 = n
    · simp [setCol, if_pos hp, colLookup]
    · simp only [colLookup, if_neg hp] at h
      simp only [setCol, if_neg hp, colLookup, if_neg hp]
      exact ih h

/-- Setting an existing column keeps the number of columns. -/
theorem setCol_length (n : String) (v : List Cell) :
    ∀ cols w, colLookup cols n = some w → (setCol cols n v).length = cols.length := by
  intro cols
  induction cols with
  | nil => intro w h; simp [colLookup] at h
  | cons p rest ih =>
    intro w h
    by_cases hp : p.1 = n
    · simp [setCol, hp]
    · simp only [colLookup, if_neg hp] at h
      simp [setCol, hp, ih w h]

/-- Positional view of setting an existing column: every slot is either
untouched, or it is the replaced slot, which previously held the old
value under the same name. -/
theorem setCol_getD_cases (n : String) (v : List Cell) :
    ∀ cols w, colLookup cols n = some w → ∀ i : Nat,
      (setCol cols n v).getD i colDefault = cols.getD i colDefault ∨
      ((setCol cols n v).getD i colDefault = (n, v) ∧
        cols.getD i colDefault = (n, w)) := by
  intro cols
  induction cols with
  | nil => intro w h; simp [colLookup] at h
  | cons p rest ih =>
    intro w h i
    by_cases hp : p.1 = n
    · simp only [colLookup, if_pos hp] at h
      cases i with
      | zero =>
        right
        have hpw : p = (n, w) := by
          cases p with
          | mk a b =>
            injection h with h2
            simp only at hp h2
            rw [hp, h2]
        constructor
        · simp [setCol, hp]
        · simp [hpw]
      | succ j =>
        left
        simp [setCol, hp]
    · simp only [colLookup, if_neg hp] at h
      cases i with
      | zero => left; simp [setCol, hp]
      | succ j =>
        have hstep := ih w h j
        simp only [setCol, if_neg hp, List.getD_cons_succ]
        exact hstep

/-- Entries whose name differs from the written column survive a set. -/
theorem mem_setCol_of_ne (n m : String) (u v : List Cell) (hm : m ≠ n) :
    ∀ cols, (m, u) ∈ cols → (m, u) ∈ setCol cols n v := by
  intro cols
  induction cols with
  | nil => intro h; simp at h
  | cons p rest ih =>
    intro h
    by_cases hp : p.1 = n
    · simp only [setCol, if_pos hp]
      rcases List.mem_cons.mp h with h1 | h1
      · exact absurd (by rw [← h1] at hp; exact hp) hm
      · exact List.mem_cons_of_mem _ h1
    · simp only [setCol, if_neg hp]
      rcases List.mem_cons.mp h with h1 | h1
      · exact h1 ▸ List.mem_cons_self _ _
      · exact List.mem_cons_of_mem _ (ih h1)

/-- A successful lookup exhibits a member of the column list. -/
theorem colLookup_mem (n : String) :
    ∀ cols v, colLookup cols n = some v → (n, v) ∈ cols := by
  intro cols
  induction cols with
  | nil => intro v h; simp [colLookup] at h
  | cons p rest ih =>
    intro v h
    by_cases hp : p.1 = n
    · simp only [colLookup, if_pos hp] at h
      have hpv : p = (n, v) := by
        cases p with
        | mk a b =>
          injection h with h2
          simp only at hp h2
          rw [hp, h2]
      exact hpv ▸ List.mem_cons_self _ _
    · simp only [colLookup, if_neg hp] at h
      exact List.mem_cons_of_mem _ (ih v h)

/-- The rename does not disturb lookups of names other than the old and
the new header. -/
theorem colLookup_map_renameEntry_ne (n : String) (h1 : n ≠ "death_event")
    (h2 : n ≠ "DEATH_EVENT") :
    ∀ cols, colLookup (cols.map renameEntry) n = colLookup cols n := by
  intro cols
  induction cols with
  | nil => rfl
  | cons p rest ih =>
    by_cases hd : p.1 = "DEATH_EVENT"
    · simp only [List.map_cons, renameEntry, if_pos hd, colLookup]
      rw [if_neg (fun hh => h1 hh.symm), if_neg (by rw [hd]; exact fun hh => h2 hh.symm)]
      exact ih
    · simp only [List.map_cons, renameEntry, if_neg hd, colLookup]
      by_cases hm : p.1 = n
      · rw [if_pos hm, if_pos hm]
      · rw [if_neg hm, if_neg hm]; exact ih

/-- After the rename no column answers to the old header. -/
theorem colLookup_map_renameEntry_DE :
    ∀ cols : List (String × List Cell),
      colLookup (cols.map renameEntry) "DEATH_EVENT" = none := by
  intro cols
  induction cols with
  | nil => rfl
  | cons p rest ih =>
    by_cases hd : p.1 = "DEATH_EVENT"
    · simp only [List.map_cons, renameEntry, if_pos hd, colLookup]
      rw [if_neg (by decide)]
      exact ih
    · simp only [List.map_cons, renameEntry, if_neg hd, colLookup, if_neg hd]
      exact ih

/-- Positional view of the rename: it acts slot-wise. -/
theorem getD_map_renameEntry (cols : List (String × List Cell)) (i : Nat) :
    (cols.map renameEntry).getD i colDefault = renameEntry (cols.getD i colDefault) := by
  induction cols generalizing i with
  | nil =>
    cases i <;> rfl
  | cons p rest ih =>
    cases i with
    | zero => simp
    | succ j => simpa using ih j

/-- Computation of `clean_data` when all five recoded columns are present:
it succeeds, with the five columns recoded in place and the rename applied
last. -/
theorem clean_data_eq_of_lookups (df : DataFrame) (va vd vh vs vm : List Cell)
    (ha : colLookup df.cols "anaemia" = some va)
    (hd : colLookup df.cols "diabetes" = some vd)
    (hh : colLookup df.cols "high_blood_pressure" = some vh)
    (hs : colLookup df.cols "sex" = some vs)
    (hm : colLookup df.cols "smoking" = some vm) :
    clean_data df =
      Except.ok ⟨df.nrows, (recodedCols df.cols va vd vh vs vm).map renameEntry⟩ := by
  have t2 : colLookup (setCol df.cols "anaemia" (va.map (recodeCell "No" "Yes")))
      "diabetes" = some vd := by
    rw [colLookup_setCol_ne _ _ _ (by decide), hd]
  have t3 : colLookup (setCol (setCol df.cols "anaemia" (va.map (recodeCell "No" "Yes")))
      "diabetes" (vd.map (recodeCell "No" "Yes"))) "high_blood_pressure" = some vh := by
    rw [colLookup_setCol_ne _ _ _ (by decide), colLookup_setCol_ne _ _ _ (by decide), hh]
  have t4 : colLookup (setCol (setCol (setCol df.cols "anaemia"
      (va.map (recodeCell "No" "Yes"))) "diabetes" (vd.map (recodeCell "No" "Yes")))
      "high_blood_pressure" (vh.map (recodeCell "No" "Yes"))) "sex" = some vs := by
    rw [colLookup_setCol_ne _ _ _ (by decide), colLookup_setCol_ne _ _ _ (by decide),
      colLookup_setCol_ne _ _ _ (by decide), hs]
  have t5 : colLookup (setCol (setCol (setCol (setCol df.cols "anaemia"
      (va.map (recodeCell "No" "Yes"))) "diabetes" (vd.map (recodeCell "No" "Yes")))
      "high_blood_pressure" (vh.map (recodeCell "No" "Yes")))
      "sex" (vs.map (recodeCell "Woman" "Man"))) "smoking" = some vm := by
    rw [colLookup_setCol_ne _ _ _ (by decide), colLookup_setCol_ne _ _ _ (by decide),
      colLookup_setCol_ne _ _ _ (by decide), colLookup_setCol_ne _ _ _ (by decide), hm]
  simp [clean_data, prepare_data, recodeCol, ha, t2, t3, t4, t5, recodedCols,
    renameDeathEvent, exbind_ok, exbind_err, exmap_ok, exmap_err]

/-- Elimination form for a successful `clean_data`: the five recoded
columns were present and the result is the renamed recode chain. -/
theorem clean_data_ok_elim (df df' : DataFrame) (h : clean_data df = Except.ok df') :
    ∃ va vd vh vs vm,
      colLookup df.cols "anaemia" = some va ∧
      colLookup df.cols "diabetes" = some vd ∧
      colLookup df.cols "high_blood_pressure" = some vh ∧
      colLookup df.cols "sex" = some vs ∧
      colLookup df.cols "smoking" = some vm ∧
      df'.nrows = df.nrows ∧
      df'.cols = (recodedCols df.cols va vd vh vs vm).map renameEntry := by
  rcases ha : colLookup df.cols "anaemia" with _ | va
  · exfalso
    simp [clean_data, prepare_data, recodeCol, ha, exbind_ok, exbind_err, exmap_ok, exmap_err] at h
  rcases hd : colLookup df.cols "diabetes" with _ | vd
  · exfalso
    have t2 : colLookup (setCol df.cols "anaemia" (va.map (recodeCell "No" "Yes")))
        "diabetes" = none := by
      rw [colLookup_setCol_ne _ _ _ (by decide), hd]
    simp [clean_data, prepare_data, recodeCol, ha, t2, exbind_ok, exbind_err, exmap_ok, exmap_err] at h
  rcases hh : colLookup df.cols "high_blood_pressure" with _ | vh
  · exfalso
    have t2 : colLookup (setCol df.cols "anaemia" (va.map (recodeCell "No" "Yes")))
        "diabetes" = some vd := by
      rw [colLookup_setCol_ne _ _ _ (by decide), hd]
    have t3 : colLookup (setCol (setCol df.cols "anaemia"
        (va.map (recodeCell "No" "Yes"))) "diabetes" (vd.map (recodeCell "No" "Yes")))
        "high_blood_pressure" = none := by
      rw [colLookup_setCol_ne _ _ _ (by decide), colLookup_setCol_ne _ _ _ (by decide), hh]
    simp [clean_data, prepare_data, recodeCol, ha, t2, t3, exbind_ok, exbind_err, exmap_ok, exmap_err] at h
  rcases hs : colLookup df.cols "sex" with _ | vs
  · exfalso
    have t2 : colLookup (setCol df.cols "anaemia" (va.map (recodeCell "No" "Yes")))
        "diabetes" = some vd := by
      rw [colLookup_setCol_ne _ _ _ (by decide), hd]
    have t3 : colLookup (setCol (setCol df.cols "anaemia"
        (va.map (recodeCell "No" "Yes"))) "diabetes" (vd.map (recodeCell "No" "Yes")))
        "high_blood_pressure" = some vh := by
      rw [colLookup_setCol_ne _ _ _ (by decide), colLookup_setCol_ne _ _ _ (by decide), hh]
    have t4 : colLookup (setCol (setCol (setCol df.cols "anaemia"
        (va.map (recodeCell "No" "Yes"))) "diabetes" (vd.map (recodeCell "No" "Yes")))
        "high_blood_pressure" (vh.map (recodeCell "No" "Yes"))) "sex" = none := by
      rw [colLookup_setCol_ne _ _ _ (by decide), colLookup_setCol_ne _ _ _ (by decide),
        colLookup_setCol_ne _ _ _ (by decide), hs]
    simp [clean_data, prepare_data, recodeCol, ha, t2, t3, t4, exbind_ok, exbind_err, exmap_ok, exmap_err] at h
  rcases hm : colLookup df.cols "smoking" with _ | vm
  · exfalso
    have t2 : colLookup (setCol df.cols "anaemia" (va.map (recodeCell "No" "Yes")))
        "diabetes" = some vd := by
      rw [colLookup_setCol_ne _ _ _ (by decide), hd]
    have t3 : colLookup (setCol (setCol df.cols "anaemia"
        (va.map (recodeCell "No" "Yes"))) "diabetes" (vd.map (recodeCell "No" "Yes")))
        "high_blood_pressure" = some vh := by
      rw [colLookup_setCol_ne _ _ _ (by decide), colLookup_setCol_ne _ _ _ (by decide), hh]
    have t4 : colLookup (setCol (setCol (setCol df.cols "anaemia"
        (va.map (recodeCell "No" "Yes"))) "diabetes" (vd.map (recodeCell "No" "Yes")))
        "high_blood_pressure" (vh.map (recodeCell "No" "Yes"))) "sex" = some vs := by
      rw [colLookup_setCol_ne _ _ _ (by decide), colLookup_setCol_ne _ _ _ (by decide),
        colLookup_setCol_ne _ _ _ (by decide), hs]
    have t5 : colLookup (setCol (setCol (setCol (setCol df.cols "anaemia"
        (va.map (recodeCell "No" "Yes"))) "diabetes" (vd.map (recodeCell "No" "Yes")))
        "high_blood_pressure" (vh.map (recodeCell "No" "Yes")))
        "sex" (vs.map (recodeCell "Woman" "Man"))) "smoking" = none := by
      rw [colLookup_setCol_ne _ _ _ (by decide), colLookup_setCol_ne _ _ _ (by decide),
        colLookup_setCol_ne _ _ _ (by decide), colLookup_setCol_ne _ _ _ (by decide), hm]
    simp [clean_data, prepare_data, recodeCol, ha, t2, t3, t4, t5, exbind_ok, exbind_err, exmap_ok, exmap_err] at h
  have hcomp := clean_data_eq_of_lookups df va vd vh vs vm ha hd hh hs hm
  have hok : df' = (⟨df.nrows, (recodedCols df.cols va vd vh vs vm).map renameEntry⟩ :
      DataFrame) :=
    (Except.ok.inj (hcomp.symm.trans h)).symm
  refine ⟨va, vd, vh, vs, vm, rfl, rfl, rfl, rfl, rfl, ?_, ?_⟩
  · rw [hok]
  · rw [hok]

/-- Read access characterised through the underlying lookup. -/
theorem getCol_ok_iff (df : DataFrame) (n : String) (v : List Cell) :
    getCol df n = Except.ok v ↔ colLookup df.cols n = some v := by
  unfold getCol
  rcases hl : colLookup df.cols n with _ | w
  · simp
  · simp

/-- The recode chain leaves the recoded `anaemia` values visible. -/
theorem recodedCols_lookup_anaemia (cols : List (String × List Cell))
    (va vd vh vs vm : List Cell) (ha : colLookup cols "anaemia" = some va) :
    colLookup (recodedCols cols va vd vh vs vm) "anaemia" =
      some (va.map (recodeCell "No" "Yes")) := by
  unfold recodedCols
  rw [colLookup_setCol_ne _ _ _ (by decide), colLookup_setCol_ne _ _ _ (by decide),
    colLookup_setCol_ne _ _ _ (by decide), colLookup_setCol_ne _ _ _ (by decide)]
  exact colLookup_setCol_self _ _ _ _ ha

/-- The recode chain leaves the recoded `diabetes` values visible. -/
theorem recodedCols_lookup_diabetes (cols : List (String × List Cell))
    (va vd vh vs vm : List Cell) (hd : colLookup cols "diabetes" = some vd) :
    colLookup (recodedCols cols va vd vh vs vm) "diabetes" =
      some (vd.map (recodeCell "No" "Yes")) := by
  unfold recodedCols
  rw [colLookup_setCol_ne _ _ _ (by decide), colLookup_setCol_ne _ _ _ (by decide),
    colLookup_setCol_ne _ _ _ (by decide)]
  exact colLookup_setCol_self _ _ _ _
    (by rw [colLookup_setCol_ne _ _ _ (by decide), hd])

/-- The recode chain leaves the recoded `high_blood_pressure` values
visible. -/
theorem recodedCols_lookup_hbp (cols : List (String × List Cell))
    (va vd vh vs vm : List Cell)
    (hh : colLookup cols "high_blood_pressure" = some vh) :
    colLookup (recodedCols cols va vd vh vs vm) "high_blood_pressure" =
      some (vh.map (recodeCell "No" "Yes")) := by
  unfold recodedCols
  rw [colLookup_setCol_ne _ _ _ (by decide), colLookup_setCol_ne _ _ _ (by decide)]
  exact colLookup_setCol_self _ _ _ _
    (by rw [colLookup_setCol_ne _ _ _ (by decide), colLookup_setCol_ne _ _ _ (by decide), hh])

/-- The recode chain leaves the recoded `sex` values visible. -/
theorem recodedCols_lookup_sex (cols : List (String × List Cell))
    (va vd vh vs vm : List Cell) (hs : colLookup cols "sex" = some vs) :
    colLookup (recodedCols cols va vd vh vs vm) "sex" =
      some (vs.map (recodeCell "Woman" "Man")) := by
  unfold recodedCols
  rw [colLookup_setCol_ne _ _ _ (by decide)]
  exact colLookup_setCol_self _ _ _ _
    (by rw [colLookup_setCol_ne _ _ _ (by decide), colLookup_setCol_ne _ _ _ (by decide),
      colLookup_setCol_ne _ _ _ (by decide), hs])

/-- The recode chain leaves the recoded `smoking` values visible. -/
theorem recodedCols_lookup_smoking (cols : List (String × List Cell))
    (va vd vh vs vm : List Cell) (hm : colLookup cols "smoking" = some vm) :
    colLookup (recodedCols cols va vd vh vs vm) "smoking" =
      some (vm.map (recodeCell "No" "Yes")) := by
  unfold recodedCols
  exact colLookup_setCol_self _ _ _ _
    (by rw [colLookup_setCol_ne _ _ _ (by decide), colLookup_setCol_ne _ _ _ (by decide),
      colLookup_setCol_ne _ _ _ (by decide), colLookup_setCol_ne _ _ _ (by decide), hm])

/-- C1: for every table, the cleaner recodes each of the four binary
columns by sending the numeric value 0 to the label "No" and every other
value to "Yes", and recodes `sex` by sending 0 to "Woman" and every other
value to "Man". -/
theorem c1_recode_binary_and_sex (df df' : DataFrame)
    (h : clean_data df = Except.ok df') :
    (∀ c ∈ binaryRecodeCols, ∀ v, getCol df c = Except.ok v →
      getCol df' c = Except.ok (v.map (recodeCell "No" "Yes"))) ∧
    (∀ v, getCol df "sex" = Except.ok v →
      getCol df' "sex" = Except.ok (v.map (recodeCell "Woman" "Man"))) := by
  obtain ⟨va, vd, vh, vs, vm, ha, hd, hh, hs, hm, hn, hcols⟩ := clean_data_ok_elim df df' h
  constructor
  · intro c hc v hv
    have hv' := (getCol_ok_iff df c v).mp hv
    simp only [binaryRecodeCols, List.mem_cons, List.mem_singleton] at hc
    rcases hc with rfl | rfl | rfl | hc
    · obtain rfl : va = v := Option.some.inj (ha.symm.trans hv')
      rw [getCol_ok_iff, hcols, colLookup_map_renameEntry_ne _ (by decide) (by decide)]
      exact recodedCols_lookup_anaemia df.cols va vd vh vs vm ha
    · obtain rfl : vd = v := Option.some.inj (hd.symm.trans hv')
      rw [getCol_ok_iff, hcols, colLookup_map_renameEntry_ne _ (by decide) (by decide)]
      exact recodedCols_lookup_diabetes df.cols va vd vh vs vm hd
    · obtain rfl : vh = v := Option.some.inj (hh.symm.trans hv')
      rw [getCol_ok_iff, hcols, colLookup_map_renameEntry_ne _ (by decide) (by decide)]
      exact recodedCols_lookup_hbp df.cols va vd vh vs vm hh
    · rcases hc with rfl | hc
      · obtain rfl : vm = v := Option.some.inj (hm.symm.trans hv')
        rw [getCol_ok_iff, hcols, colLookup_map_renameEntry_ne _ (by decide) (by decide)]
        exact recodedCols_lookup_smoking df.cols va vd vh vs vm hm
      · simp at hc
  · intro v hv
    have hv' := (getCol_ok_iff df "sex" v).mp hv
    obtain rfl : vs = v := Option.some.inj (hs.symm.trans hv')
    rw [getCol_ok_iff, hcols, colLookup_map_renameEntry_ne _ (by decide) (by decide)]
    exact recodedCols_lookup_sex df.cols va vd vh vs vm hs

/-- A concrete table holding all six referenced columns, with coded
values 0, 1 and 2, plus an untouched `age` column. -/
def dfSample : DataFrame :=
  ⟨3, [("anaemia", [Cell.num 0, Cell.num 1, Cell.num 2]),
       ("diabetes", [Cell.num 0]),
       ("high_blood_pressure", [Cell.num 1]),
       ("sex", [Cell.num 0, Cell.num 1, Cell.num 2]),
       ("smoking", [Cell.num 0]),
       ("DEATH_EVENT", [Cell.num 0, Cell.num 1]),
       ("age", [Cell.num 60])]⟩

/-- The table `clean_data` produces from `dfSample`. -/
def dfSampleCleaned : DataFrame :=
  ⟨3, [("anaemia", [Cell.str "No", Cell.str "Yes", Cell.str "Yes"]),
       ("diabetes", [Cell.str "No"]),
       ("high_blood_pressure", [Cell.str "Yes"]),
       ("sex", [Cell.str "Woman", Cell.str "Man", Cell.str "Man"]),
       ("smoking", [Cell.str "No"]),
       ("death_event", [Cell.num 0, Cell.num 1]),
       ("age", [Cell.num 60])]⟩

/-- Witness for C1 at a concrete input: coded values {0, 1, 2} recode to
{No, Yes, Yes} in a binary column and to {Woman, Man, Man} in `sex`. -/
theorem c1_recode_binary_and_sex_witness :
    clean_data dfSample = Except.ok dfSampleCleaned ∧
    getCol dfSampleCleaned "anaemia" =
      Except.ok [Cell.str "No", Cell.str "Yes", Cell.str "Yes"] ∧
    getCol dfSampleCleaned "sex" =
      Except.ok [Cell.str "Woman", Cell.str "Man", Cell.str "Man"] := by
  have hclean : clean_data dfSample = Except.ok dfSampleCleaned := rfl
  refine ⟨hclean, ?_, ?_⟩
  · exact (c1_recode_binary_and_sex dfSample dfSampleCleaned hclean).1 "anaemia"
      (by simp [binaryRecodeCols]) [Cell.num 0, Cell.num 1, Cell.num 2] rfl
  · exact (c1_recode_binary_and_sex dfSample dfSampleCleaned hclean).2
      [Cell.num 0, Cell.num 1, Cell.num 2] rfl

/-- C2: when the input table has a `DEATH_EVENT` column, the cleaned
table has no column of that name any more, it contains a `death_event`
column holding the original `DEATH_EVENT` values in their original
order, and `clean_data` returns exactly the table `prepare_data`
produced. -/
theorem c2_death_event_rename (df df' : DataFrame) (v : List Cell)
    (hv : getCol df "DEATH_EVENT" = Except.ok v)
    (h : clean_data df = Except.ok df') :
    hasCol df' "DEATH_EVENT" = false ∧
    ("death_event", v) ∈ df'.cols ∧
    clean_data df = prepare_data df := by
  obtain ⟨va, vd, vh, vs, vm, ha, hd, hh, hs, hm, hn, hcols⟩ := clean_data_ok_elim df df' h
  have hv' := (getCol_ok_iff df "DEATH_EVENT" v).mp hv
  refine ⟨?_, ?_, rfl⟩
  · unfold hasCol
    rw [hcols, colLookup_map_renameEntry_DE]
    rfl
  · have hmem : ("DEATH_EVENT", v) ∈ df.cols := colLookup_mem _ df.cols v hv'
    have hmem2 : ("DEATH_EVENT", v) ∈ recodedCols df.cols va vd vh vs vm := by
      unfold recodedCols
      exact mem_setCol_of_ne _ _ _ _ (by decide) _
        (mem_setCol_of_ne _ _ _ _ (by decide) _
          (mem_setCol_of_ne _ _ _ _ (by decide) _
            (mem_setCol_of_ne _ _ _ _ (by decide) _
              (mem_setCol_of_ne _ _ _ _ (by decide) _ hmem))))
    rw [hcols]
    have hre : renameEntry ("DEATH_EVENT", v) = ("death_event", v) := by
      simp [renameEntry]
    exact hre ▸ List.mem_map_of_mem renameEntry hmem2

/-- Witness for C2 at a concrete input: the cleaned sample table has no
`DEATH_EVENT` column and carries the original values under
`death_event`. -/
theorem c2_death_event_rename_witness :
    hasCol dfSampleCleaned "DEATH_EVENT" = false ∧
    ("death_event", [Cell.num 0, Cell.num 1]) ∈ dfSampleCleaned.cols := by
  have h := c2_death_event_rename dfSample dfSampleCleaned
    [Cell.num 0, Cell.num 1] rfl rfl
  exact ⟨h.1, h.2.1⟩

/-- A table holding the five recoded columns but no `DEATH_EVENT`. -/
def dfNoDeathEvent : DataFrame :=
  ⟨1, [("anaemia", [Cell.num 0]), ("diabetes", [Cell.num 1]),
       ("high_blood_pressure", [Cell.num 0]), ("sex", [Cell.num 1]),
       ("smoking", [Cell.num 0])]⟩

/-- Counterexample to C3 as stated: a table lacking `DEATH_EVENT`, one of
the six referenced columns, on which `clean_data` nevertheless succeeds,
because pandas `rename` silently ignores a missing key by default. -/
theorem c3_counterexample :
    hasCol dfNoDeathEvent "DEATH_EVENT" = false ∧
    clean_data dfNoDeathEvent = Except.ok
      ⟨1, [("anaemia", [Cell.str "No"]), ("diabetes", [Cell.str "Yes"]),
           ("high_blood_pressure", [Cell.str "No"]), ("sex", [Cell.str "Man"]),
           ("smoking", [Cell.str "No"])]⟩ :=
  ⟨rfl, rfl⟩

/-- C3 amended: `clean_data` succeeds exactly when the five recoded
columns `anaemia`, `diabetes`, `high_blood_pressure`, `sex` and
`smoking` are all present; a missing `DEATH_EVENT` alone never makes it
fail, so the operation raises precisely when one of the five is absent. -/
theorem c3_missing_column_failure (df : DataFrame) :
    (∃ d, clean_data df = Except.ok d) ↔
      (hasCol df "anaemia" = true ∧ hasCol df "diabetes" = true ∧
       hasCol df "high_blood_pressure" = true ∧ hasCol df "sex" = true ∧
       hasCol df "smoking" = true) := by
  constructor
  · rintro ⟨d, hok⟩
    obtain ⟨va, vd, vh, vs, vm, ha, hd, hh, hs, hm, _, _⟩ := clean_data_ok_elim df d hok
    exact ⟨by simp [hasCol, ha], by simp [hasCol, hd], by simp [hasCol, hh],
      by simp [hasCol, hs], by simp [hasCol, hm]⟩
  · rintro ⟨ha, hd, hh, hs, hm⟩
    obtain ⟨va, ha2⟩ := Option.isSome_iff_exists.mp ha
    obtain ⟨vd, hd2⟩ := Option.isSome_iff_exists.mp hd
    obtain ⟨vh, hh2⟩ := Option.isSome_iff_exists.mp hh
    obtain ⟨vs, hs2⟩ := Option.isSome_iff_exists.mp hs
    obtain ⟨vm, hm2⟩ := Option.isSome_iff_exists.mp hm
    exact ⟨_, clean_data_eq_of_lookups df va vd vh vs vm ha2 hd2 hh2 hs2 hm2⟩

/-- Witness for amended C3 at a concrete input: the five recoded columns
suffice for success even without `DEATH_EVENT`. -/
theorem c3_missing_column_failure_witness :
    ∃ d, clean_data dfNoDeathEvent = Except.ok d :=
  (c3_missing_column_failure dfNoDeathEvent).mpr ⟨rfl, rfl, rfl, rfl, rfl⟩

/-- The five column names whose values the cleaner rewrites. -/
def recodedNames : List String :=
  ["anaemia", "diabetes", "high_blood_pressure", "sex", "smoking"]

/-- Positional facts about one in-place recode assignment: slot names are
preserved, per-slot value lengths are preserved, and slots whose name
differs from the written column are untouched. -/
theorem setCol_getD_facts (n : String) (w : List Cell) (f : Cell → Cell)
    (cols : List (String × List Cell)) (h : colLookup cols n = some w) (i : Nat) :
    ((setCol cols n (w.map f)).getD i colDefault).1 = (cols.getD i colDefault).1 ∧
    ((setCol cols n (w.map f)).getD i colDefault).2.length =
      ((cols.getD i colDefault).2).length ∧
    ((cols.getD i colDefault).1 ≠ n →
      (setCol cols n (w.map f)).getD i colDefault = cols.getD i colDefault) := by
  rcases setCol_getD_cases n (w.map f) cols w h i with hc | ⟨hc1, hc2⟩
  · exact ⟨by rw [hc], by rw [hc], fun _ => hc⟩
  · refine ⟨?_, ?_, ?_⟩
    · rw [hc1, hc2]
    · rw [hc1, hc2]; simp
    · intro hne
      exact absurd (by rw [hc2]) hne

/-- Positional facts about the whole recode chain: slot names and value
lengths are preserved everywhere, and slots named outside the five
recoded columns are untouched. -/
theorem recodedCols_getD (cols : List (String × List Cell))
    (va vd vh vs vm : List Cell)
    (ha : colLookup cols "anaemia" = some va)
    (hd : colLookup cols "diabetes" = some vd)
    (hh : colLookup cols "high_blood_pressure" = some vh)
    (hs : colLookup cols "sex" = some vs)
    (hm : colLookup cols "smoking" = some vm) (i : Nat) :
    ((recodedCols cols va vd vh vs vm).getD i colDefault).1 =
      (cols.getD i colDefault).1 ∧
    ((recodedCols cols va vd vh vs vm).getD i colDefault).2.length =
      ((cols.getD i colDefault).2).length ∧
    ((cols.getD i colDefault).1 ∉ recodedNames →
      (recodedCols cols va vd vh vs vm).getD i colDefault =
        cols.getD i colDefault) := by
  have l2 : colLookup (setCol cols "anaemia" (va.map (recodeCell "No" "Yes")))
      "diabetes" = some vd := by
    rw [colLookup_setCol_ne _ _ _ (by decide), hd]
  have l3 : colLookup (setCol (setCol cols "anaemia" (va.map (recodeCell "No" "Yes")))
      "diabetes" (vd.map (recodeCell "No" "Yes"))) "high_blood_pressure" = some vh := by
    rw [colLookup_setCol_ne _ _ _ (by decide), colLookup_setCol_ne _ _ _ (by decide), hh]
  have l4 : colLookup (setCol (setCol (setCol cols "anaemia"
      (va.map (recodeCell "No" "Yes"))) "diabetes" (vd.map (recodeCell "No" "Yes")))
      "high_blood_pressure" (vh.map (recodeCell "No" "Yes"))) "sex" = some vs := by
    rw [colLookup_setCol_ne _ _ _ (by decide), colLookup_setCol_ne _ _ _ (by decide),
      colLookup_setCol_ne _ _ _ (by decide), hs]
  have l5 : colLookup (setCol (setCol (setCol (setCol cols "anaemia"
      (va.map (recodeCell "No" "Yes"))) "diabetes" (vd.map (recodeCell "No" "Yes")))
      "high_blood_pressure" (vh.map (recodeCell "No" "Yes")))
      "sex" (vs.map (recodeCell "Woman" "Man"))) "smoking" = some vm := by
    rw [colLookup_setCol_ne _ _ _ (by decide), colLookup_setCol_ne _ _ _ (by decide),
      colLookup_setCol_ne _ _ _ (by decide), colLookup_setCol_ne _ _ _ (by decide), hm]
  have s1 := setCol_getD_facts "anaemia" va (recodeCell "No" "Yes") cols ha i
  have s2 := setCol_getD_facts "diabetes" vd (recodeCell "No" "Yes") _ l2 i
  have s3 := setCol_getD_facts "high_blood_pressure" vh (recodeCell "No" "Yes") _ l3 i
  have s4 := setCol_getD_facts "sex" vs (recodeCell "Woman" "Man") _ l4 i
  have s5 := setCol_getD_facts "smoking" vm (recodeCell "No" "Yes") _ l5 i
  unfold recodedCols
  refine ⟨?_, ?_, ?_⟩
  · rw [s5.1, s4.1, s3.1, s2.1, s1.1]
  · rw [s5.2.1, s4.2.1, s3.2.1, s2.2.1, s1.2.1]
  · intro hname
    simp only [recodedNames, List.mem_cons, List.not_mem_nil, or_false, not_or] at hname
    have e1 := s1.2.2 hname.1
    have e2 := s2.2.2 (by rw [s1.1]; exact hname.2.1)
    have e3 := s3.2.2 (by rw [s2.1, s1.1]; exact hname.2.2.1)
    have e4 := s4.2.2 (by rw [s3.1, s2.1, s1.1]; exact hname.2.2.2.1)
    have e5 := s5.2.2 (by rw [s4.1, s3.1, s2.1, s1.1]; exact hname.2.2.2.2)
    rw [e5, e4, e3, e2, e1]

/-- The recode chain keeps the number of columns. -/
theorem recodedCols_length (cols : List (String × List Cell))
    (va vd vh vs vm : List Cell)
    (ha : colLookup cols "anaemia" = some va)
    (hd : colLookup cols "diabetes" = some vd)
    (hh : colLookup cols "high_blood_pressure" = some vh)
    (hs : colLookup cols "sex" = some vs)
    (hm : colLookup cols "smoking" = some vm) :
    (recodedCols cols va vd vh vs vm).length = cols.length := by
  have l2 : colLookup (setCol cols "anaemia" (va.map (recodeCell "No" "Yes")))
      "diabetes" = some vd := by
    rw [colLookup_setCol_ne _ _ _ (by decide), hd]
  have l3 : colLookup (setCol (setCol cols "anaemia" (va.map (recodeCell "No" "Yes")))
      "diabetes" (vd.map (recodeCell "No" "Yes"))) "high_blood_pressure" = some vh := by
    rw [colLookup_setCol_ne _ _ _ (by decide), colLookup_setCol_ne _ _ _ (by decide), hh]
  have l4 : colLookup (setCol (setCol (setCol cols "anaemia"
      (va.map (recodeCell "No" "Yes"))) "diabetes" (vd.map (recodeCell "No" "Yes")))
      "high_blood_pressure" (vh.map (recodeCell "No" "Yes"))) "sex" = some vs := by
    rw [colLookup_setCol_ne _ _ _ (by decide), colLookup_setCol_ne _ _ _ (by decide),
      colLookup_setCol_ne _ _ _ (by decide), hs]
  have l5 : colLookup (setCol (setCol (setCol (setCol cols "anaemia"
      (va.map (recodeCell "No" "Yes"))) "diabetes" (vd.map (recodeCell "No" "Yes")))
      "high_blood_pressure" (vh.map (recodeCell "No" "Yes")))
      "sex" (vs.map (recodeCell "Woman" "Man"))) "smoking" = some vm := by
    rw [colLookup_setCol_ne _ _ _ (by decide), colLookup_setCol_ne _ _ _ (by decide),
      colLookup_setCol_ne _ _ _ (by decide), colLookup_setCol_ne _ _ _ (by decide), hm]
  unfold recodedCols
  rw [setCol_length _ _ _ _ l5, setCol_length _ _ _ _ l4, setCol_length _ _ _ _ l3,
    setCol_length _ _ _ _ l2, setCol_length _ _ _ _ ha]

/-- C9: on a table with all six referenced columns, the cleaner changes
only the values of the five recoded columns and the header of
`DEATH_EVENT`: the row count is kept, the number of columns is kept,
columns named outside the six keep their name, values and position, the
`DEATH_EVENT` slot keeps its values under the new name in place, every
slot keeps its value count, and every slot keeps its name except
`DEATH_EVENT`. -/
theorem c9_frame_effect (df df' : DataFrame)
    (_hde : hasCol df "DEATH_EVENT" = true)
    (h : clean_data df = Except.ok df') :
    df'.nrows = df.nrows ∧
    df'.cols.length = df.cols.length ∧
    (∀ i, (df.cols.getD i colDefault).1 ∉ cleanerTouchedCols →
      df'.cols.getD i colDefault = df.cols.getD i colDefault) ∧
    (∀ i, (df.cols.getD i colDefault).1 = "DEATH_EVENT" →
      df'.cols.getD i colDefault = ("death_event", (df.cols.getD i colDefault).2)) ∧
    (∀ i, (df'.cols.getD i colDefault).2.length =
      ((df.cols.getD i colDefault).2).length) ∧
    (∀ i, (df'.cols.getD i colDefault).1 =
      (if (df.cols.getD i colDefault).1 = "DEATH_EVENT" then "death_event"
       else (df.cols.getD i colDefault).1)) := by
  obtain ⟨va, vd, vh, vs, vm, ha, hd, hh, hs, hm, hn, hcols⟩ := clean_data_ok_elim df df' h
  have hget : ∀ i, df'.cols.getD i colDefault =
      renameEntry ((recodedCols df.cols va vd vh vs vm).getD i colDefault) := by
    intro i
    rw [hcols]
    exact getD_map_renameEntry _ i
  have hfacts := fun i => recodedCols_getD df.cols va vd vh vs vm ha hd hh hs hm i
  refine ⟨hn, ?_, ?_, ?_, ?_, ?_⟩
  · rw [hcols, List.length_map]
    exact recodedCols_length df.cols va vd vh vs vm ha hd hh hs hm
  · intro i hname
    simp only [cleanerTouchedCols, List.mem_cons, List.not_mem_nil, or_false,
      not_or] at hname
    obtain ⟨h1, h2, h3, h4, h5, h6⟩ := hname
    have hname5 : (df.cols.getD i colDefault).1 ∉ recodedNames := by
      simp only [recodedNames, List.mem_cons, List.not_mem_nil, or_false, not_or]
      exact ⟨h1, h2, h3, h4, h5⟩
    rw [hget i, (hfacts i).2.2 hname5]
    simp only [renameEntry]
    rw [if_neg h6]
  · intro i hnameDE
    have hname5 : (df.cols.getD i colDefault).1 ∉ recodedNames := by
      rw [hnameDE]; decide
    rw [hget i, (hfacts i).2.2 hname5]
    simp only [renameEntry]
    rw [if_pos hnameDE]
  · intro i
    rw [hget i]
    exact (hfacts i).2.1
  · intro i
    rw [hget i]
    simp only [renameEntry]
    rw [(hfacts i).1]

/-- Witness for C9 at a concrete input: the untouched `age` column keeps
its name, values and position, the `DEATH_EVENT` slot keeps its values
under the new header in place, and the row count is unchanged. -/
theorem c9_frame_effect_witness :
    clean_data dfSample = Except.ok dfSampleCleaned ∧
    dfSampleCleaned.cols.getD 6 colDefault = ("age", [Cell.num 60]) ∧
    dfSampleCleaned.cols.getD 5 colDefault =
      ("death_event", [Cell.num 0, Cell.num 1]) ∧
    dfSampleCleaned.nrows = dfSample.nrows := by
  have h := c9_frame_effect dfSample dfSampleCleaned rfl rfl
  refine ⟨rfl, ?_, ?_, h.1⟩
  · exact h.2.2.1 6 (by decide)
  · exact h.2.2.2.1 5 (by decide)

/-- Per-column missing-cell counts, mirroring `data.isnull().sum()`. -/
def isnullSum (df : DataFrame) : List (String × Nat) :=
  df.cols.map (fun p => (p.1, p.2.countP Cell.isMissing))

/-- Division of a series by a scalar, as in
`100 * data.isnull().sum() / len(data)`. A zero denominator is surfaced
as an explicit division-by-zero outcome: the source divides by
`len(data)` with no guard anywhere on this path, so on a zero-row table
the division by zero is reached unconditionally. -/
def seriesDivScalar (s : List (String × ℚ)) (d : ℚ) : Except PyErr (List (String × ℚ)) :=
  if d = 0 then Except.error PyErr.zeroDivision
  else Except.ok (s.map (fun p => (p.1, p.2 / d)))

/-- Round half to even to an integer, the rounding mode Python and numpy
use, phrased on the numerator and denominator: with f the floor of q,
the fractional part q - f compares against one half as
2 * (num - f * den) against den. -/
def roundHalfEven (q : ℚ) : ℤ :=
  if 2 * (q.num - q.num.fdiv q.den * q.den) < q.den then q.num.fdiv q.den
  else if (q.den : ℤ) < 2 * (q.num - q.num.fdiv q.den * q.den) then q.num.fdiv q.den + 1
  else if q.num.fdiv q.den % 2 = 0 then q.num.fdiv q.den else q.num.fdiv q.den + 1

/-- Rounding to two decimal places, mirroring `.round(2)`. -/
def round2 (q : ℚ) : ℚ :=
  (roundHalfEven (q * 100) : ℚ) / 100

/-- `SimpleMissingValuesAnalysis.analyze_missing_values`: computes
`(100 * data.isnull().sum() / len(data)).round(2)`; the printed series
(one entry per column, in column order) is the observable outcome. -/
def analyze_missing_values (df : DataFrame) : Except PyErr (List (String × ℚ)) := do
  let scaled := (isnullSum df).map (fun p => (p.1, (100 : ℚ) * (p.2 : ℚ)))
  let pct ← seriesDivScalar scaled (df.nrows : ℚ)
  pure (pct.map (fun p => (p.1, round2 p.2)))

/-- C4: on a table with at least one row, the analysis reports, for every
column with k missing cells out of n rows, the percentage
`round(100 * k / n, 2)`, and the reported series has one entry for every
column, zero-missing columns included. -/
theorem c4_missing_percentages (df : DataFrame) (h : 0 < df.nrows) :
    analyze_missing_values df = Except.ok
      (df.cols.map (fun p =>
        (p.1, round2 (100 * (p.2.countP Cell.isMissing : ℚ) / (df.nrows : ℚ))))) := by
  have hnz : (df.nrows : ℚ) ≠ 0 := by
    exact_mod_cast Nat.pos_iff_ne_zero.mp h
  simp [analyze_missing_values, seriesDivScalar, hnz, isnullSum, exbind_ok, exmap_ok,
    List.map_map, Function.comp]

/-- A concrete table with four rows: one column missing one cell of
four, one column missing none. -/
def dfPct : DataFrame :=
  ⟨4, [("serum_sodium", [Cell.missing, Cell.num 1, Cell.num 2, Cell.num 3]),
       ("age", [Cell.num 1, Cell.num 2, Cell.num 3, Cell.num 4])]⟩

/-- Witness for C4 at a concrete input: one missing cell of four rows
reports 25.0 and a complete column still reports 0. -/
theorem c4_missing_percentages_witness :
    analyze_missing_values dfPct =
      Except.ok [("serum_sodium", 25), ("age", 0)] := by
  rw [c4_missing_percentages dfPct (by decide)]
  norm_num [dfPct, Cell.isMissing, round2, roundHalfEven]

/-- C8: on a zero-row table the percentage step reaches its division
with denominator `len(data) = 0`: nothing on the path checks the row
count, so the division by zero occurs for every such table. -/
theorem c8_zero_rows_division (df : DataFrame) (h : df.nrows = 0) :
    analyze_missing_values df = Except.error PyErr.zeroDivision := by
  simp [analyze_missing_values, seriesDivScalar, h, exbind_err]

/-- A table with columns but no rows. -/
def dfEmpty : DataFrame :=
  ⟨0, [("age", []), ("sex", [])]⟩

/-- Witness for C8 at a concrete input. -/
theorem c8_zero_rows_division_witness :
    analyze_missing_values dfEmpty = Except.error PyErr.zeroDivision :=
  c8_zero_rows_division dfEmpty rfl

/-- Python `str.endswith`, modelled as a suffix test on the underlying
character lists. -/
def pyEndsWith (s suf : String) : Bool :=
  decide (suf.data <:+ s.data)

/-- The two ingestor variants the factory can return. -/
inductive Ingestor where
  | csv
  | zipfile
  deriving DecidableEq, Repr

/-- `DataIngestorFactory.get_ingestor`: a locator ending in ".csv" gives
the CSV variant, otherwise one ending in ".zip" gives the archive
variant, and any other suffix raises `ValueError`. -/
def get_ingestor (data_source_uri : String) : Except PyErr Ingestor :=
  if pyEndsWith data_source_uri ".csv" then Except.ok Ingestor.csv
  else if pyEndsWith data_source_uri ".zip" then Except.ok Ingestor.zipfile
  else Except.error (PyErr.valueError ("Unsupported data source: " ++ data_source_uri))

/-- No string ends in both ".csv" and ".zip". -/
theorem not_endsWith_csv_and_zip (l : List Char)
    (h1 : ".csv".data <:+ l) (h2 : ".zip".data <:+ l) : False := by
  obtain ⟨a, ha⟩ := h1
  obtain ⟨b, hb⟩ := h2
  have hl : a ++ ".csv".data = b ++ ".zip".data := ha.trans hb.symm
  have hlen : a.length = b.length := by
    have hc := congrArg List.length hl
    have e1 : (".csv".data).length = 4 := rfl
    have e2 : (".zip".data).length = 4 := rfl
    simp only [List.length_append, e1, e2] at hc
    omega
  have heq := (List.append_inj hl hlen).2
  exact absurd heq (by decide)

/-- C5: the factory returns the CSV variant for a locator ending in
".csv", the archive variant for one ending in ".zip", and raises an
unsupported-source `ValueError` for every other suffix. -/
theorem c5_ingestor_factory (uri : String) :
    (pyEndsWith uri ".csv" = true → get_ingestor uri = Except.ok Ingestor.csv) ∧
    (pyEndsWith uri ".zip" = true → get_ingestor uri = Except.ok Ingestor.zipfile) ∧
    (pyEndsWith uri ".csv" = false → pyEndsWith uri ".zip" = false →
      get_ingestor uri = Except.error
        (PyErr.valueError ("Unsupported data source: " ++ uri))) := by
  refine ⟨?_, ?_, ?_⟩
  · intro h1
    simp [get_ingestor, h1]
  · intro h2
    have h1 : pyEndsWith uri ".csv" = false := by
      rcases hcsv : pyEndsWith uri ".csv" with _ | _
      · rfl
      · exact absurd (not_endsWith_csv_and_zip uri.data
          (of_decide_eq_true hcsv) (of_decide_eq_true h2)) not_false
    simp [get_ingestor, h1, h2]
  · intro h1 h2
    simp [get_ingestor, h1, h2]

/-- Witness for C5 at three concrete locators, one per branch. -/
theorem c5_ingestor_factory_witness :
    get_ingestor "data.csv" = Except.ok Ingestor.csv ∧
    get_ingestor "data.zip" = Except.ok Ingestor.zipfile ∧
    get_ingestor "data.txt" =
      Except.error (PyErr.valueError "Unsupported data source: data.txt") :=
  ⟨(c5_ingestor_factory "data.csv").1 (by decide),
   (c5_ingestor_factory "data.zip").2.1 (by decide),
   (c5_ingestor_factory "data.txt").2.2 (by decide) (by decide)⟩

/-- Python `str.split(sep)` on character lists: splits at every
separator occurrence and keeps empty segments, as Python does. -/
def pySplit (sep : Char) : List Char → List (List Char)
  | [] => [[]]
  | c :: cs =>
    match pySplit sep cs with
    | [] => [[]]
    | seg :: rest => if c = sep then [] :: seg :: rest else (c :: seg) :: rest

/-- A split never produces the empty list of segments. -/
theorem pySplit_ne_nil (sep : Char) (l : List Char) : pySplit sep l ≠ [] := by
  cases l with
  | nil => simp [pySplit]
  | cons c cs =>
    simp only [pySplit]
    rcases h : pySplit sep cs with _ | ⟨seg, rest⟩
    · simp
    · by_cases hc : c = sep <;> simp [hc]

/-- Splitting a separator-free list yields that list as the only
segment. -/
theorem pySplit_no_sep (sep : Char) (l : List Char) (h : sep ∉ l) :
    pySplit sep l = [l] := by
  induction l with
  | nil => rfl
  | cons c cs ih =>
    simp only [List.mem_cons, not_or] at h
    simp only [pySplit, ih h.2]
    rw [if_neg (fun e => h.1 e.symm)]

/-- Splitting a list containing the separator yields at least two
segments. -/
theorem pySplit_length_two (sep : Char) (l : List Char) (h : sep ∈ l) :
    2 ≤ (pySplit sep l).length := by
  induction l with
  | nil => simp at h
  | cons c cs ih =>
    simp only [pySplit]
    rcases hs : pySplit sep cs with _ | ⟨seg, rest⟩
    · exact absurd hs (pySplit_ne_nil sep cs)
    · by_cases hc : c = sep
      · simp [hc]
      · have hmem : sep ∈ cs := by
          rcases List.mem_cons.mp h with h1 | h1
          · exact absurd h1.symm hc
          · exact h1
        have hlen := ih hmem
        rw [hs] at hlen
        simp only [if_neg hc, List.length_cons] at hlen ⊢
        omega

/-- Unfolding for the default-last element of a nonempty list. -/
theorem getLastD_cons_eq {α : Type} (a : α) (l : List α) (d : α) :
    (a :: l).getLastD d = l.getLastD a := by
  cases l <;> simp [List.getLastD]

/-- The default is irrelevant on a nonempty list. -/
theorem getLastD_irrel {α : Type} (l : List α) (h : l ≠ []) (d e : α) :
    l.getLastD d = l.getLastD e := by
  cases l with
  | nil => exact absurd rfl h
  | cons a as => rw [getLastD_cons_eq, getLastD_cons_eq]

/-- The locator's last '/'-separated segment, `uri.split('/')[-1]`. -/
def pyLastSeg (l : List Char) : List Char :=
  (pySplit '/' l).getLastD []

/-- Prepending a character does not change the last segment of a list
that contains a separator. -/
theorem pyLastSeg_cons (c : Char) (l : List Char) (h : '/' ∈ l) :
    pyLastSeg (c :: l) = pyLastSeg l := by
  unfold pyLastSeg
  simp only [pySplit]
  rcases hs : pySplit '/' l with _ | ⟨seg, rest⟩
  · exact absurd hs (pySplit_ne_nil _ _)
  · have hlen := pySplit_length_two '/' l h
    rw [hs] at hlen
    have hrest : rest ≠ [] := by
      cases rest
      · simp at hlen
      · simp
    show (if c = '/' then [] :: seg :: rest else (c :: seg) :: rest).getLastD [] =
      (seg :: rest).getLastD []
    by_cases hc : c = '/'
    · rw [if_pos hc, getLastD_cons_eq]
    · rw [if_neg hc, getLastD_cons_eq, getLastD_cons_eq]
      exact getLastD_irrel rest hrest _ _

/-- The last segment of anything followed by a '/' and a slash-free tail
is that tail. -/
theorem pyLastSeg_append (pre t : List Char) (h : '/' ∉ t) :
    pyLastSeg (pre ++ '/' :: t) = t := by
  induction pre with
  | nil =>
    simp [pyLastSeg, pySplit, pySplit_no_sep '/' t h, getLastD_cons_eq, List.getLastD]
  | cons c pre ih =>
    rw [List.cons_append, pyLastSeg_cons c _ (by simp)]
    exact ih

/-- The last path segment of a locator as a string. -/
def strLastSeg (uri : String) : String :=
  String.mk (pyLastSeg uri.data)

/-- Python `str.replace("+", "_")` for the single-character pattern:
every '+' becomes '_'. -/
def pyReplacePlus (l : List Char) : List Char :=
  l.map (fun c => if c = '+' then '_' else c)

/-- `ZipFileIngestor.ingest_data`'s target filename:
`data_source_uri.split('/')[-1][:-3] + "csv"` followed by
`filename.replace("+", "_")`; the slice `[:-3]` keeps all but the last
three characters. -/
def zip_derived_filename (data_source_uri : String) : String :=
  String.mk (pyReplacePlus
    ((pyLastSeg data_source_uri.data).take
        ((pyLastSeg data_source_uri.data).length - 3) ++ "csv".data))

/-- C6: every locator whose last segment is "a+b.zip" derives the target
filename "a_b.csv" — the last '/'-separated segment with its trailing
three characters stripped, "csv" appended, and '+' replaced by '_'. -/
theorem c6_zip_filename (s : String) :
    zip_derived_filename (s ++ "/a+b.zip") = "a_b.csv" := by
  unfold zip_derived_filename
  have hdata : (s ++ "/a+b.zip").data = s.data ++ '/' :: "a+b.zip".data := by
    rw [String.data_append]
  rw [hdata, pyLastSeg_append s.data _ (by decide)]
  rfl

/-- What `requests.get` would produce for a locator: a response with a
status code and a byte payload, or a raised exception. -/
inductive HttpResult where
  | resp (status : Nat) (content : List Nat)
  | exn (msg : String)
  deriving DecidableEq, Repr

/-- The console notices the CSV ingestor can print (colour markup of the
source is cosmetic and omitted). -/
inductive ConsoleMsg where
  | fileExistsSkip (filename : String)
  | downloadedOk (filename : String)
  | downloadFailedStatus (status : Nat)
  | connectionError (msg : String)
  deriving DecidableEq, Repr

/-- The observable machine state the ingestor touches: directories,
files (path and bytes), and the console transcript. -/
structure World where
  dirs : List String
  files : List (String × List Nat)
  console : List ConsoleMsg
  deriving DecidableEq, Repr

/-- `os.makedirs("datasets")` when the directory does not yet exist. -/
def ensureDatasets (w : World) : World :=
  if "datasets" ∈ w.dirs then w else { w with dirs := w.dirs ++ ["datasets"] }

/-- `CSVIngestor.ingest_data`: derive the filename from the locator's
last segment, ensure the `datasets` directory, skip with a notice if the
file exists, otherwise consult the transfer outcome: write the payload
on status 200, print a failure notice on any other status, and print an
error notice when the transfer raised; the catch-all `except` makes the
function total, so no exception ever reaches the caller. -/
def csvIngest (w : World) (data_source_uri : String) (http : HttpResult) : World :=
  let filename := strLastSeg data_source_uri
  let w1 := ensureDatasets w
  let file_path := "datasets" ++ "/" ++ filename
  if (w1.files.lookup file_path).isSome then
    { w1 with console := w1.console ++ [ConsoleMsg.fileExistsSkip filename] }
  else
    match http with
    | HttpResult.resp status content =>
      if status = 200 then
        { w1 with
            files := w1.files ++ [(file_path, content)],
            console := w1.console ++ [ConsoleMsg.downloadedOk filename] }
      else
        { w1 with console := w1.console ++ [ConsoleMsg.downloadFailedStatus status] }
    | HttpResult.exn m =>
      { w1 with console := w1.console ++ [ConsoleMsg.connectionError m] }

/-- A transfer that does not succeed: any non-200 status, or a raised
exception. -/
def httpFailed : HttpResult → Prop
  | HttpResult.resp status _ => status ≠ 200
  | HttpResult.exn _ => True

/-- C7: when the transfer does not succeed — non-200 status or an
exception — the CSV ingestor leaves the file store untouched (so no file
appears at the target path) and only appends one console notice;
`csvIngest` is a total function into `World`, so no exception propagates
to the caller. -/
theorem c7_soft_failure (w : World) (uri : String) (http : HttpResult)
    (h : httpFailed http) :
    (csvIngest w uri http).files = w.files ∧
    ∃ m, (csvIngest w uri http).console = w.console ++ [m] := by
  have hf : (ensureDatasets w).files = w.files := by
    unfold ensureDatasets
    split <;> rfl
  have hc : (ensureDatasets w).console = w.console := by
    unfold ensureDatasets
    split <;> rfl
  rcases http with ⟨status, content⟩ | m
  · have hs : status ≠ 200 := h
    simp only [csvIngest, if_neg hs]
    split
    · exact ⟨by simp [hf], ConsoleMsg.fileExistsSkip (strLastSeg uri), by simp [hc]⟩
    · exact ⟨by simp [hf], ConsoleMsg.downloadFailedStatus status, by simp [hc]⟩
  · simp only [csvIngest]
    split
    · exact ⟨by simp [hf], ConsoleMsg.fileExistsSkip (strLastSeg uri), by simp [hc]⟩
    · exact ⟨by simp [hf], ConsoleMsg.connectionError m, by simp [hc]⟩

/-- The empty machine state. -/
def w0 : World := ⟨[], [], []⟩

/-- Witness for C7 at a concrete failing transfer (status 404). -/
theorem c7_soft_failure_witness :
    (csvIngest w0 "http://host/data.csv" (HttpResult.resp 404 [])).files = w0.files ∧
    ∃ m, (csvIngest w0 "http://host/data.csv" (HttpResult.resp 404 [])).console =
      w0.console ++ [m] :=
  c7_soft_failure w0 "http://host/data.csv" (HttpResult.resp 404 [])
    (show (404 : Nat) ≠ 200 by decide)

/-- The outcome of `data.describe(exclude=np.number)`: a summary, or a
raised `ValueError` carrying a message. -/
inductive DescribeCatResult where
  | ok (summary : String)
  | valueError (msg : String)
  deriving DecidableEq, Repr

/-- `SummaryStatisticsInspection.inspect`: print the numeric summary
under its header, then attempt the categorical summary; a `ValueError`
is caught, and only the exact message "No objects to concatenate" earns
the substitute notice — any other caught message produces nothing. The
returned list is the console transcript. -/
def summary_statistics_inspect (numericDesc : String)
    (cat : DescribeCatResult) : List String :=
  ["\nSummary statistics for `numerical` features:", numericDesc,
   "\nSummary statistics for `categorical` features:"] ++
  match cat with
  | DescribeCatResult.ok s => [s]
  | DescribeCatResult.valueError e =>
    if e = "No objects to concatenate"
    then ["`data` does not contain categorical features."]
    else []

/-- C10: a caught `ValueError` whose message is not exactly
"No objects to concatenate" is suppressed silently — the transcript is
exactly the numeric part: no substitute notice, and, the function being
total, nothing propagates to the caller. -/
theorem c10_silent_suppression (numericDesc m : String)
    (h : m ≠ "No objects to concatenate") :
    summary_statistics_inspect numericDesc (DescribeCatResult.valueError m) =
      ["\nSummary statistics for `numerical` features:", numericDesc,
       "\nSummary statistics for `categorical` features:"] := by
  simp [summary_statistics_inspect, h]

/-- Witness for C10 at a concrete non-matching message. -/
theorem c10_silent_suppression_witness :
    summary_statistics_inspect "stats" (DescribeCatResult.valueError "boom") =
      ["\nSummary statistics for `numerical` features:", "stats",
       "\nSummary statistics for `categorical` features:"] :=
  c10_silent_suppression "stats" "boom" (by decide)
